import Mathlib

/-!
Verification of the generator-side architecture of an AttnGAN-style
text-to-image network: the cross-modal attention module
(src/networks/attention.py), the functional attention variant, the
generator stages (src/networks/generator_submodules.py) and the layer
primitives (src/utilities/layers.py).

Tensors are shallowly embedded in two complementary ways:

* value level: a tensor of shape (a, b, ...) is a function
  `Fin a → Fin b → ... → ℝ`; PyTorch `view` / `transpose` reshapes are
  embedded literally through index arithmetic (`p / W`, `p % W`,
  `i * W + j`).  The IEEE float operations are read as exact real
  arithmetic; `masked_fill(mask == 0, -inf)` followed by `softmax` is
  embedded by `maskedSoftmaxRow`, using exp(-infinity) = 0: a masked
  entry contributes 0 to the numerator and is dropped from the
  normalising sum.
* shape level: a tensor is reduced to its shape (`S2`/`S3`/`S4`) and
  every PyTorch operation to its shape contract, returning `none`
  exactly when the operation raises a runtime shape error.

Mask tensors hold numbers (the source tests `mask == 0`); they are
embedded with exact rational entries so the test stays decidable.
-/

/-! ### Index bookkeeping for flattened spatial dimensions -/

/-- Bound for the row index recovered from a flattened pair index:
`view (m, n) -> (m*n)` sends `(i, j)` to `i*n + j`; dividing back by `n`
stays below `m`. -/
def fin_div_lt {m n : ℕ} (p : Fin (m * n)) : p.val / n < m := by
  have hn : 0 < n := by
    rcases Nat.eq_zero_or_pos n with h | h
    · exact absurd p.isLt (by simp [h])
    · exact h
  exact (Nat.div_lt_iff_lt_mul hn).mpr p.isLt

/-- Bound for the column index recovered from a flattened pair index. -/
def fin_mod_lt {m n : ℕ} (p : Fin (m * n)) : p.val % n < n := by
  have hn : 0 < n := by
    rcases Nat.eq_zero_or_pos n with h | h
    · exact absurd p.isLt (by simp [h])
    · exact h
  exact Nat.mod_lt _ hn

/-- Bound for the flattened pair index `i*n + j`. -/
def fin_pair_lt {m n : ℕ} (i : Fin m) (j : Fin n) : i.val * n + j.val < m * n := by
  calc i.val * n + j.val < i.val * n + n := by omega
    _ = (i.val + 1) * n := by ring
    _ ≤ m * n := Nat.mul_le_mul_right n i.isLt

/-! ### Exact-real semantics of the numeric primitives -/

/-- Logistic sigmoid: exact-real semantics of `torch.nn.functional.sigmoid`. -/
noncomputable def sigmoid (x : ℝ) : ℝ := 1 / (1 + Real.exp (-x))

/-- Exact-real semantics of `torch.softmax(z, dim=1)` applied to one row. -/
noncomputable def softmaxRow {n : ℕ} (s : Fin n → ℝ) : Fin n → ℝ :=
  fun i => Real.exp (s i) / ∑ j, Real.exp (s j)

/-- Exact-real semantics of `attn.masked_fill(mask == 0, -inf)` followed by
`torch.softmax(attn, dim=1)`, applied to one row: exp(-infinity) = 0, so a
position whose mask entry equals 0 gets weight 0 and drops out of the
normalising sum (src/networks/attention.py lines 66-68). -/
noncomputable def maskedSoftmaxRow {n : ℕ} (s : Fin n → ℝ) (m : Fin n → ℚ) : Fin n → ℝ :=
  fun i =>
    if m i = 0 then 0
    else Real.exp (s i) / ∑ j ∈ Finset.univ.filter (fun j => ¬ m j = 0), Real.exp (s j)

/-! ### AttentionModule.forward, value level (src/networks/attention.py)

Sizes: `B` batch, `C` image channels (`nc_in`), `H`/`W` spatial dims,
`E` word-embedding dim, `L` sequence length.  `K` is the kernel of the
1x1 convolution `self.conv1` (`bias=False`), a channel-mixing matrix. -/

/-- `words.unsqueeze(3)`, `self.conv1(words)`, `words.squeeze(3)`
(lines 49-51): the 1x1 bias-free convolution mixes the channel axis
pointwise in the sequence position. -/
noncomputable def conv1x1Apply (B C E L : ℕ) (K : Fin C → Fin E → ℝ)
    (words : Fin B → Fin E → Fin L → ℝ) : Fin B → Fin C → Fin L → ℝ :=
  fun b c l => ∑ e, K c e * words b e l

/-- `images.view(batch, nc_in, h*w)` then `.transpose(1, 2)` (lines 54-55):
row `p` of the flattened spatial axis holds pixel `(p / w, p % w)`. -/
noncomputable def imagesFlatT (B C H W : ℕ)
    (images : Fin B → Fin C → Fin H → Fin W → ℝ) : Fin B → Fin (H * W) → Fin C → ℝ :=
  fun b p c => images b c ⟨p.val / W, fin_div_lt p⟩ ⟨p.val % W, fin_mod_lt p⟩

/-- `attn = torch.bmm(images, words)`, the optional scaling by
`1 / sqrt(nc_in)`, and `attn.view(batch*h*w, seq_len)` (lines 58-63). -/
noncomputable def attnLogits (B C H W E L : ℕ) (K : Fin C → Fin E → ℝ)
    (images : Fin B → Fin C → Fin H → Fin W → ℝ)
    (words : Fin B → Fin E → Fin L → ℝ) (scaled : Bool) :
    Fin (B * (H * W)) → Fin L → ℝ :=
  fun q l =>
    let b : Fin B := ⟨q.val / (H * W), fin_div_lt q⟩
    let p : Fin (H * W) := ⟨q.val % (H * W), fin_mod_lt q⟩
    let a : ℝ := ∑ c, imagesFlatT B C H W images b p c * conv1x1Apply B C E L K words b c l
    if scaled then a * (1 / Real.sqrt (C : ℝ)) else a

/-- `torch.repeat_interleave(input=self.mask, repeats=h*w, dim=0)` (line 65):
row `q` of the expanded mask is row `q / (h*w)` of the original. -/
def maskRepeated (B H W L : ℕ) (mask : Fin B → Fin L → ℚ) :
    Fin (B * (H * W)) → Fin L → ℚ :=
  fun q l => mask ⟨q.val / (H * W), fin_div_lt q⟩ l

/-- Lines 66-68: `masked_fill(mask == 0, -inf)` and `softmax(dim=1)` on the
`(batch*h*w, seq_len)` matrix. -/
noncomputable def attnProbs (B C H W E L : ℕ) (K : Fin C → Fin E → ℝ)
    (images : Fin B → Fin C → Fin H → Fin W → ℝ)
    (words : Fin B → Fin E → Fin L → ℝ)
    (mask : Fin B → Fin L → ℚ) (scaled : Bool) :
    Fin (B * (H * W)) → Fin L → ℝ :=
  fun q => maskedSoftmaxRow (attnLogits B C H W E L K images words scaled q)
    (maskRepeated B H W L mask q)

/-- Lines 69-70: `attn.view(batch, h*w, seq_len)` then `.transpose(1, 2)`:
entry `(b, l, p)` is entry `(b*h*w + p, l)` of the softmaxed matrix. -/
noncomputable def attnMapFlat (B C H W E L : ℕ) (K : Fin C → Fin E → ℝ)
    (images : Fin B → Fin C → Fin H → Fin W → ℝ)
    (words : Fin B → Fin E → Fin L → ℝ)
    (mask : Fin B → Fin L → ℚ) (scaled : Bool) :
    Fin B → Fin L → Fin (H * W) → ℝ :=
  fun b l p =>
    attnProbs B C H W E L K images words mask scaled ⟨b.val * (H * W) + p.val, fin_pair_lt b p⟩ l

/-- `AttentionModule.forward` (src/networks/attention.py lines 24-79), value
level, for a mask already set by `apply_mask`.  Returns the pair
`(weighted_words.view(batch, nc_in, h, w), attn.view(batch, seq_len, h, w))`;
the weighted words are `torch.bmm(words, attn)` (line 73). -/
noncomputable def AttentionModule_forward (B C H W E L : ℕ) (K : Fin C → Fin E → ℝ)
    (images : Fin B → Fin C → Fin H → Fin W → ℝ)
    (words : Fin B → Fin E → Fin L → ℝ)
    (mask : Fin B → Fin L → ℚ) (scaled : Bool) :
    (Fin B → Fin C → Fin H → Fin W → ℝ) × (Fin B → Fin L → Fin H → Fin W → ℝ) :=
  ( fun b c i j => ∑ l, conv1x1Apply B C E L K words b c l *
      attnMapFlat B C H W E L K images words mask scaled b l ⟨i.val * W + j.val, fin_pair_lt i j⟩,
    fun b l i j =>
      attnMapFlat B C H W E L K images words mask scaled b l ⟨i.val * W + j.val, fin_pair_lt i j⟩ )

/-! ### func_attention, value level (src/networks/attention.py lines 82-120)

Sizes: `B` batch, `D` feature dim (`ndf`), `Q` query length, `ih`/`iw`
spatial dims of the context; `sourceL = ih*iw`.  `nn.Softmax()` without a
`dim` argument resolves to `dim=1` on a 2-dimensional input, so both
softmax stages act on the last axis of the matrix they are given. -/

/-- `context.view(batch_size, -1, sourceL)` (line 95): entry `(b, d, s)`
is pixel `(s / iw, s % iw)` of channel `d`. -/
noncomputable def ctxFlat (B D ih iw : ℕ)
    (context : Fin B → Fin D → Fin ih → Fin iw → ℝ) : Fin B → Fin D → Fin (ih * iw) → ℝ :=
  fun b d s => context b d ⟨s.val / iw, fin_div_lt s⟩ ⟨s.val % iw, fin_mod_lt s⟩

/-- `attn = torch.bmm(contextT, query)` with the optional scaling by
`1 / sqrt(ndf)` and `attn.view(batch_size*sourceL, queryL)` (lines 101-106):
row `r` is the pair (batch `r / sourceL`, source location `r % sourceL`). -/
noncomputable def funcAttnScores1 (B D Q ih iw : ℕ)
    (query : Fin B → Fin D → Fin Q → ℝ)
    (context : Fin B → Fin D → Fin ih → Fin iw → ℝ) (scaled : Bool) :
    Fin (B * (ih * iw)) → Fin Q → ℝ :=
  fun r q =>
    let a : ℝ := ∑ d,
      ctxFlat B D ih iw context ⟨r.val / (ih * iw), fin_div_lt r⟩ d ⟨r.val % (ih * iw), fin_mod_lt r⟩ *
        query ⟨r.val / (ih * iw), fin_div_lt r⟩ d q
    if scaled then a * (1 / Real.sqrt (D : ℝ)) else a

/-- First softmax stage, `attn = nn.Softmax()(attn)` (line 107): applied to
the `(batch*sourceL, queryL)` matrix, hence normalising along the query
axis of each row. -/
noncomputable def funcAttnFirst (B D Q ih iw : ℕ)
    (query : Fin B → Fin D → Fin Q → ℝ)
    (context : Fin B → Fin D → Fin ih → Fin iw → ℝ) (scaled : Bool) :
    Fin (B * (ih * iw)) → Fin Q → ℝ :=
  fun r => softmaxRow (funcAttnScores1 B D Q ih iw query context scaled r)

/-- `attn = attn.view(batch_size, sourceL, queryL)` (line 109): the
first-stage attention laid out as (batch, source location, query). -/
noncomputable def funcAttnFirstView (B D Q ih iw : ℕ)
    (query : Fin B → Fin D → Fin Q → ℝ)
    (context : Fin B → Fin D → Fin ih → Fin iw → ℝ) (scaled : Bool)
    (b : Fin B) (s : Fin (ih * iw)) (q : Fin Q) : ℝ :=
  funcAttnFirst B D Q ih iw query context scaled ⟨b.val * (ih * iw) + s.val, fin_pair_lt b s⟩ q

/-- `torch.transpose(attn, 1, 2)`, `attn.view(batch_size*queryL, sourceL)`
and `attn = attn * gamma1` (lines 110-114): row `r` of the second-stage
input is the pair (batch `r / queryL`, query `r % queryL`). -/
noncomputable def funcAttnScores2 (B D Q ih iw : ℕ)
    (query : Fin B → Fin D → Fin Q → ℝ)
    (context : Fin B → Fin D → Fin ih → Fin iw → ℝ) (scaled : Bool) (gamma1 : ℝ) :
    Fin (B * Q) → Fin (ih * iw) → ℝ :=
  fun r s =>
    funcAttnFirstView B D Q ih iw query context scaled
      ⟨r.val / Q, fin_div_lt r⟩ s ⟨r.val % Q, fin_mod_lt r⟩ * gamma1

/-- Second softmax stage, `attn = nn.Softmax()(attn)` (line 115): applied to
the `(batch*queryL, sourceL)` matrix, hence normalising along the source
axis of each row. -/
noncomputable def funcAttnSecond (B D Q ih iw : ℕ)
    (query : Fin B → Fin D → Fin Q → ℝ)
    (context : Fin B → Fin D → Fin ih → Fin iw → ℝ) (scaled : Bool) (gamma1 : ℝ) :
    Fin (B * Q) → Fin (ih * iw) → ℝ :=
  fun r => softmaxRow (funcAttnScores2 B D Q ih iw query context scaled gamma1 r)

/-- `attn = attn.view(batch_size, queryL, sourceL)` (line 116). -/
noncomputable def funcAttnSecondView (B D Q ih iw : ℕ)
    (query : Fin B → Fin D → Fin Q → ℝ)
    (context : Fin B → Fin D → Fin ih → Fin iw → ℝ) (scaled : Bool) (gamma1 : ℝ)
    (b : Fin B) (q : Fin Q) (s : Fin (ih * iw)) : ℝ :=
  funcAttnSecond B D Q ih iw query context scaled gamma1 ⟨b.val * Q + q.val, fin_pair_lt b q⟩ s

/-- `func_attention` (lines 82-120): returns
`(weightedContext, attn.view(batch_size, -1, ih, iw))` where
`weightedContext = torch.bmm(context, attnT)`. -/
noncomputable def func_attention (B D Q ih iw : ℕ)
    (query : Fin B → Fin D → Fin Q → ℝ)
    (context : Fin B → Fin D → Fin ih → Fin iw → ℝ) (gamma1 : ℝ) (scaled : Bool) :
    (Fin B → Fin D → Fin Q → ℝ) × (Fin B → Fin Q → Fin ih → Fin iw → ℝ) :=
  ( fun b d q => ∑ s, ctxFlat B D ih iw context b d s *
      funcAttnSecondView B D Q ih iw query context scaled gamma1 b q s,
    fun b q i j =>
      funcAttnSecondView B D Q ih iw query context scaled gamma1 b q ⟨i.val * iw + j.val, fin_pair_lt i j⟩ )

/-! ### Layers.GLU, value level (src/utilities/layers.py lines 13-26)

A tensor entering the gated linear unit is reduced to (batch, channel,
flattened remaining dims); entries outside the stated shape are
irrelevant junk. -/

/-- A tensor indexed as (batch, channel, remaining dims flattened). -/
structure NCTensor where
  batch : ℕ
  chan : ℕ
  rest : ℕ
  data : ℕ → ℕ → ℕ → ℝ

/-- `Layers.GLU`'s inner `forward` (src/utilities/layers.py lines 19-23):
`nc = x.size(1)`, `assert nc % 2 == 0` (an odd channel count raises
`AssertionError`, embedded as `none`), and the gated product
`x[:, :nc//2] * F.sigmoid(x[:, nc//2:])`: output channel `c` pairs the
first-half entry `c` with the gate entry `c + nc//2`. -/
noncomputable def GLU_forward (x : NCTensor) : Option NCTensor :=
  if x.chan % 2 = 0 then
    some ⟨x.batch, x.chan / 2, x.rest,
      fun b c r => x.data b c r * sigmoid (x.data b (c + x.chan / 2) r)⟩
  else none

/-! ### Shape-level embedding

A tensor is reduced to its shape; every operation to its shape contract.
`none` means the PyTorch call raises a runtime error (shape mismatch,
failed `view`, attribute access on a `None` mask). -/

/-- Shape of a rank-2 tensor. -/
structure S2 where
  b : ℕ
  n : ℕ
deriving DecidableEq

/-- Shape of a rank-3 tensor (batch, channel, length). -/
structure S3 where
  b : ℕ
  c : ℕ
  l : ℕ
deriving DecidableEq

/-- Shape of a rank-4 tensor (batch, channel, height, width). -/
structure S4 where
  b : ℕ
  c : ℕ
  h : ℕ
  w : ℕ
deriving DecidableEq

/-- Shape contract of `Layers.conv3x3` (src/utilities/layers.py lines 33-36):
3x3 convolution, `padding=1`, spatial dims preserved; the input channel
count must equal `in_planes`. -/
def conv3x3Shape (inP outP : ℕ) (s : S4) : Option S4 :=
  if s.c = inP then some ⟨s.b, outP, s.h, s.w⟩ else none

/-- Shape contract of `nn.BatchNorm2d(nf)`: channel count must equal `nf`. -/
def batchNorm2dShape (nf : ℕ) (s : S4) : Option S4 :=
  if s.c = nf then some s else none

/-- Shape contract of `nn.Upsample(scale_factor=2, mode='nearest')`. -/
def upsampleX2Shape (s : S4) : S4 := ⟨s.b, s.c, 2 * s.h, 2 * s.w⟩

/-- Shape contract of `Layers.GLU` on a rank-4 input
(src/utilities/layers.py lines 19-23): the assert rejects odd channel
counts, otherwise the channel axis is halved. -/
def gluShape (s : S4) : Option S4 :=
  if s.c % 2 = 0 then some ⟨s.b, s.c / 2, s.h, s.w⟩ else none

/-- Shape contract of `Layers.upBlock(in_planes, out_planes)`
(src/utilities/layers.py lines 38-47): upsample x2, conv3x3 to
`out_planes*2`, batch norm, GLU. -/
def upBlockShape (inP outP : ℕ) (s : S4) : Option S4 := do
  let t1 ← conv3x3Shape inP (outP * 2) (upsampleX2Shape s)
  let t2 ← batchNorm2dShape (outP * 2) t1
  gluShape t2

/-- Shape contract of one `Layers.ResBlock(channel_num)`
(src/utilities/layers.py lines 116-135): conv3x3 to `channel_num*2`,
batch norm, GLU, conv3x3 to `channel_num`, batch norm, then the residual
addition `out += residual`, which requires the block output shape to
equal the input shape. -/
def resBlockShape (cn : ℕ) (s : S4) : Option S4 := do
  let t1 ← conv3x3Shape cn (cn * 2) s
  let t2 ← batchNorm2dShape (cn * 2) t1
  let t3 ← gluShape t2
  let t4 ← conv3x3Shape cn cn t3
  let t5 ← batchNorm2dShape cn t4
  if t5 = s then some t5 else none

/-- `GenNextStage._make_layer`: `num_residual_blocks` ResBlocks in an
`nn.Sequential` (src/networks/generator_submodules.py lines 96-100). -/
def seqResBlocks (cn : ℕ) : ℕ → S4 → Option S4
  | 0, s => some s
  | n + 1, s => (resBlockShape cn s).bind (seqResBlocks cn n)

/-- `torch.cat((A, B), 1)` on rank-4 tensors: all non-channel dims must
agree; channel counts add. -/
def catDim1 (s1 s2 : S4) : Option S4 :=
  if s1.b = s2.b ∧ s1.h = s2.h ∧ s1.w = s2.w then some ⟨s1.b, s1.c + s2.c, s1.h, s1.w⟩ else none

/-- `AttentionModule.apply_mask` (src/networks/attention.py lines 21-22):
stores the mask unconditionally in the module's mutable field. -/
def AttentionModule_apply_mask (mask : S2) : Option S2 := some mask

/-- Shape contract of `AttentionModule.forward`
(src/networks/attention.py lines 24-79) with configuration `nc_in = ncIn`,
`emb_dim = embDim` and the stored mask state `maskOpt`:

* `(batch, seq_len) = self.mask.shape` raises an `AttributeError` when no
  mask was set (`none` state); the unpacking rebinds `batch` and `seq_len`
  to the mask's dimensions, shadowing the values unpacked from `images`
  and `words`;
* `self.conv1(words)` requires the word channel dim to equal `emb_dim`;
* `images.view(batch, nc_in, h*w)` requires the element counts to agree;
* `torch.bmm(images, words)` requires equal batch dims and equal inner
  dims (`nc_in` from the images side, the conv output channels on the
  words side);
* `attn.view(batch*h*w, seq_len)` requires the element counts to agree;
* `torch.bmm(words, attn)` requires equal batch dims and the words length
  to equal `seq_len`.

Returns the shapes of `(weighted_words.view(batch, nc_in, h, w),
attn.view(batch, seq_len, h, w))`. -/
def attnForwardShape (ncIn embDim : ℕ) (maskOpt : Option S2) (img : S4) (wrd : S3) :
    Option (S4 × S4) :=
  match maskOpt with
  | none => none
  | some msk =>
    let batch := msk.b
    let seqLen := msk.n
    if wrd.c = embDim then
      if img.b * (img.c * (img.h * img.w)) = batch * (img.c * (img.h * img.w)) then
        if batch = wrd.b ∧ img.c = ncIn then
          if batch * ((img.h * img.w) * wrd.l) = batch * ((img.h * img.w) * seqLen) then
            if wrd.b = batch ∧ wrd.l = seqLen then
              some (⟨batch, ncIn, img.h, img.w⟩, ⟨batch, seqLen, img.h, img.w⟩)
            else none
          else none
        else none
      else none
    else none

/-- Shape contract of `GenNextStage.forward`
(src/networks/generator_submodules.py lines 101-119) with configuration
`gf_dim = gf`, `emb_dim = emb`, `num_residual_blocks = nres`:
`apply_mask` then attention, `torch.cat((images, context), 1)`, the
residual stack at `gf_dim*2` channels, and `upBlock(gf_dim*2, gf_dim)`. -/
def genNextStageForwardShape (gf emb nres : ℕ) (img : S4) (wrd : S3) (msk : S2) :
    Option (S4 × S4) := do
  let (ctx, attn) ← attnForwardShape gf emb (AttentionModule_apply_mask msk) img wrd
  let ic ← catDim1 img ctx
  let r ← seqResBlocks (gf * 2) nres ic
  let out ← upBlockShape (gf * 2) gf r
  return (out, attn)

/-- Shape contract of `nn.Linear(inF, outF)` on a rank-2 input. -/
def linearShape (inF outF : ℕ) (s : S2) : Option S2 :=
  if s.n = inF then some ⟨s.b, outF⟩ else none

/-- Shape contract of `nn.BatchNorm1d(nf)` on a rank-2 input. -/
def batchNorm1dShape (nf : ℕ) (s : S2) : Option S2 :=
  if s.n = nf then some s else none

/-- Shape contract of `Layers.GLU` on a rank-2 input: `x.size(1)` is the
feature axis. -/
def glu1dShape (s : S2) : Option S2 :=
  if s.n % 2 = 0 then some ⟨s.b, s.n / 2⟩ else none

/-- `torch.cat((noise, sentence), 1)` on rank-2 tensors. -/
def catDim1S2 (s1 s2 : S2) : Option S2 :=
  if s1.b = s2.b then some ⟨s1.b, s1.n + s2.n⟩ else none

/-- `X.view(-1, c, h, w)`: the leading dim is inferred, so the element
count must be a positive multiple of `c*h*w`. -/
def viewInferBatch (c h w : ℕ) (s : S2) : Option S4 :=
  if c * (h * w) ≠ 0 ∧ (s.b * s.n) % (c * (h * w)) = 0 then
    some ⟨(s.b * s.n) / (c * (h * w)), c, h, w⟩
  else none

/-- The layer parameters produced by `GenInitialStage.define_module`
(src/networks/generator_submodules.py lines 33-44): the fully connected
input/output widths and the `(in_planes, out_planes)` pair of each of the
four `upBlock`s.  The constructor performs no divisibility check on
`gf_dim`; every width is an integer floor division of `gf_dim`. -/
structure GenInitialStageConfig where
  fcIn : ℕ
  fcOut : ℕ
  up1 : ℕ × ℕ
  up2 : ℕ × ℕ
  up3 : ℕ × ℕ
  up4 : ℕ × ℕ
deriving DecidableEq

/-- `GenInitialStage.define_module` (src/networks/generator_submodules.py
lines 33-44): a total function of the configuration; no construction-time
validation exists in the source. -/
def GenInitialStage_define_module (ng nz ne : ℕ) : GenInitialStageConfig :=
  ⟨nz + ne, ng * 4 * 4 * 2, (ng, ng / 2), (ng / 2, ng / 4), (ng / 4, ng / 8), (ng / 8, ng / 16)⟩

/-- Shape contract of `GenInitialStage.forward`
(src/networks/generator_submodules.py lines 46-66): concatenate noise and
sentence, `fc` (linear to `ng*4*4*2`, batch norm, GLU),
`X.view(-1, gf_dim, 4, 4)`, then the four `upBlock`s of
`define_module`. -/
def genInitialStageForwardShape (ng nz ne : ℕ) (noiseS sentS : S2) : Option S4 := do
  let ns ← catDim1S2 noiseS sentS
  let t1 ← linearShape (nz + ne) (ng * 4 * 4 * 2) ns
  let t2 ← batchNorm1dShape (ng * 4 * 4 * 2) t1
  let t3 ← glu1dShape t2
  let x0 ← viewInferBatch ng 4 4 t3
  let x1 ← upBlockShape ng (ng / 2) x0
  let x2 ← upBlockShape (ng / 2) (ng / 4) x1
  let x3 ← upBlockShape (ng / 4) (ng / 8) x2
  upBlockShape (ng / 8) (ng / 16) x3

/-! ### Helper lemmas -/

/-- Recovering the batch row from a flattened (batch, position) index. -/
theorem idx_mul_add_div (M b p : ℕ) (hp : p < M) : (b * M + p) / M = b := by
  have hM : 0 < M := lt_of_le_of_lt (Nat.zero_le _) hp
  rw [mul_comm, Nat.mul_add_div hM, Nat.div_eq_of_lt hp, Nat.add_zero]

/-- A softmax row over a nonempty index set sums to 1. -/
theorem softmaxRow_sum {n : ℕ} (hn : 0 < n) (s : Fin n → ℝ) :
    ∑ i, softmaxRow s i = 1 := by
  have hne : Nonempty (Fin n) := ⟨⟨0, hn⟩⟩
  have hZ : 0 < ∑ j, Real.exp (s j) :=
    Finset.sum_pos (fun j _ => Real.exp_pos _) Finset.univ_nonempty
  unfold softmaxRow
  rw [← Finset.sum_div, div_self (ne_of_gt hZ)]

/-- A masked softmax row sums to 1 as soon as one position is unmasked. -/
theorem maskedSoftmaxRow_sum {n : ℕ} (s : Fin n → ℝ) (m : Fin n → ℚ)
    (hm : ∃ i, ¬ m i = 0) : ∑ i, maskedSoftmaxRow s m i = 1 := by
  have hZ : 0 < ∑ j ∈ Finset.univ.filter (fun j => ¬ m j = 0), Real.exp (s j) :=
    Finset.sum_pos (fun j _ => Real.exp_pos _)
      ⟨hm.choose, Finset.mem_filter.mpr ⟨Finset.mem_univ _, hm.choose_spec⟩⟩
  have key : ∀ i, maskedSoftmaxRow s m i =
      if ¬ m i = 0 then
        Real.exp (s i) / ∑ j ∈ Finset.univ.filter (fun j => ¬ m j = 0), Real.exp (s j)
      else 0 := by
    intro i
    unfold maskedSoftmaxRow
    by_cases h : m i = 0 <;> simp [h]
  calc ∑ i, maskedSoftmaxRow s m i
      = ∑ i ∈ Finset.univ.filter (fun j => ¬ m j = 0),
          Real.exp (s i) / ∑ j ∈ Finset.univ.filter (fun j => ¬ m j = 0), Real.exp (s j) := by
        rw [Finset.sum_filter]
        exact Finset.sum_congr rfl (fun i _ => key i)
    _ = 1 := by
        rw [← Finset.sum_div]
        exact div_self (ne_of_gt hZ)

/-- The repeated mask at flattened row `b*(H*W) + p` is mask row `b`. -/
theorem maskRepeated_eval (B H W L : ℕ) (mask : Fin B → Fin L → ℚ) (b : Fin B)
    (p : ℕ) (hp : p < H * W) (hq : b.val * (H * W) + p < B * (H * W)) (l : Fin L) :
    maskRepeated B H W L mask ⟨b.val * (H * W) + p, hq⟩ l = mask b l := by
  unfold maskRepeated
  exact congrFun (congrArg mask (Fin.ext (idx_mul_add_div (H * W) b.val p hp))) l

/-! ### C1: masked positions get zero attention weight -/

/-- C1: for every call to `AttentionModule.forward` with a previously set
mask matching `words`, and every sample `b` and sequence position `l`
whose mask value is 0, the returned attention map has weight exactly 0
(hence at most any nonnegative epsilon) at `(b, l)` for every spatial
location `(i, j)` of that sample. -/
theorem attnForward_masked_zero (B C H W E L : ℕ) (K : Fin C → Fin E → ℝ)
    (images : Fin B → Fin C → Fin H → Fin W → ℝ)
    (words : Fin B → Fin E → Fin L → ℝ)
    (mask : Fin B → Fin L → ℚ) (scaled : Bool)
    (b : Fin B) (l : Fin L) (hm : mask b l = 0) (i : Fin H) (j : Fin W)
    (ε : ℝ) (hε : 0 ≤ ε) :
    (AttentionModule_forward B C H W E L K images words mask scaled).2 b l i j = 0 ∧
    (AttentionModule_forward B C H W E L K images words mask scaled).2 b l i j ≤ ε := by
  have hq : b.val * (H * W) + (i.val * W + j.val) < B * (H * W) :=
    fin_pair_lt b ⟨i.val * W + j.val, fin_pair_lt i j⟩
  have h0 : (AttentionModule_forward B C H W E L K images words mask scaled).2 b l i j = 0 := by
    show maskedSoftmaxRow
      (attnLogits B C H W E L K images words scaled ⟨b.val * (H * W) + (i.val * W + j.val), hq⟩)
      (maskRepeated B H W L mask ⟨b.val * (H * W) + (i.val * W + j.val), hq⟩) l = 0
    unfold maskedSoftmaxRow
    rw [if_pos]
    rw [maskRepeated_eval B H W L mask b (i.val * W + j.val) (fin_pair_lt i j) hq l]
    exact hm
  exact ⟨h0, by rw [h0]; exact hε⟩

/-- C1 witness: a concrete call with batch 1, one channel, a 1x1 image,
two words, mask `[1, 0]`: the attention weight at the masked position is
0 and at most 1. -/
theorem attnForward_masked_zero_witness :
    (AttentionModule_forward 1 1 1 1 1 2 (fun _ _ => 1) (fun _ _ _ _ => 1) (fun _ _ _ => 1)
      (fun _ l => if l.val = 0 then 1 else 0) true).2 0 1 0 0 = 0 ∧
    (AttentionModule_forward 1 1 1 1 1 2 (fun _ _ => 1) (fun _ _ _ _ => 1) (fun _ _ _ => 1)
      (fun _ l => if l.val = 0 then 1 else 0) true).2 0 1 0 0 ≤ (1 : ℝ) :=
  attnForward_masked_zero 1 1 1 1 1 2 (fun _ _ => 1) (fun _ _ _ _ => 1) (fun _ _ _ => 1)
    (fun _ l => if l.val = 0 then 1 else 0) true 0 1 (by norm_num) 0 0 1 (by norm_num)

/-! ### C2: attention rows sum to one -/

/-- C2: for every call to `AttentionModule.forward` whose set mask has at
least one unmasked (value 1) position in every row, the returned
attention map summed over the word axis equals 1 for every batch sample
and spatial location. -/
theorem attnForward_sum_one (B C H W E L : ℕ) (K : Fin C → Fin E → ℝ)
    (images : Fin B → Fin C → Fin H → Fin W → ℝ)
    (words : Fin B → Fin E → Fin L → ℝ)
    (mask : Fin B → Fin L → ℚ) (scaled : Bool)
    (hmask : ∀ b : Fin B, ∃ l : Fin L, mask b l = 1)
    (b : Fin B) (i : Fin H) (j : Fin W) :
    ∑ l, (AttentionModule_forward B C H W E L K images words mask scaled).2 b l i j = 1 := by
  have hq : b.val * (H * W) + (i.val * W + j.val) < B * (H * W) :=
    fin_pair_lt b ⟨i.val * W + j.val, fin_pair_lt i j⟩
  have hrow : ∀ l : Fin L,
      (AttentionModule_forward B C H W E L K images words mask scaled).2 b l i j =
      maskedSoftmaxRow
        (attnLogits B C H W E L K images words scaled ⟨b.val * (H * W) + (i.val * W + j.val), hq⟩)
        (maskRepeated B H W L mask ⟨b.val * (H * W) + (i.val * W + j.val), hq⟩) l :=
    fun l => rfl
  rw [Finset.sum_congr rfl (fun l _ => hrow l)]
  apply maskedSoftmaxRow_sum
  obtain ⟨l0, hl0⟩ := hmask b
  refine ⟨l0, ?_⟩
  rw [maskRepeated_eval B H W L mask b (i.val * W + j.val) (fin_pair_lt i j) hq l0, hl0]
  norm_num

/-- C2 witness: a concrete call with batch 1, a 1x1 image, two words, all
mask entries 1: the attention row sums to 1. -/
theorem attnForward_sum_one_witness :
    ∑ l, (AttentionModule_forward 1 1 1 1 1 2 (fun _ _ => 1) (fun _ _ _ _ => 1)
      (fun _ _ _ => 1) (fun _ _ => 1) true).2 0 l 0 0 = 1 :=
  attnForward_sum_one 1 1 1 1 1 2 (fun _ _ => 1) (fun _ _ _ _ => 1) (fun _ _ _ => 1)
    (fun _ _ => 1) true (fun _ => ⟨0, rfl⟩) 0 0 0

/-! ### C5: which axis each func_attention softmax normalises -/

/-- C5 counterexample: the claim that the first-stage softmax of
`func_attention` normalises over the source dimension is false.  With
batch 1, `ndf` 1, two query positions and a 1x1 context (one spatial
location), all inputs zero, the first-stage attention summed along the
source axis for query position 0 is 1/2, not 1: the first
`nn.Softmax()` acts on the `(batch*sourceL, queryL)` matrix, i.e. along
the query axis. -/
theorem funcAttention_first_softmax_source_counterexample :
    ¬ (∀ (b : Fin 1) (q : Fin 2),
        ∑ s, funcAttnFirstView 1 1 2 1 1 (fun _ _ _ => 0) (fun _ _ _ _ => 0) true b s q = 1) := by
  intro h
  have h0 := h 0 0
  have hval : funcAttnFirstView 1 1 2 1 1 (fun _ _ _ => 0) (fun _ _ _ _ => 0) true
      0 ⟨0, by norm_num⟩ 0 = 1 / 2 := by
    unfold funcAttnFirstView funcAttnFirst softmaxRow funcAttnScores1 ctxFlat
    simp [Fin.sum_univ_two, Real.exp_zero]
  have huniv : (Finset.univ : Finset (Fin (1 * 1))) = {⟨0, by norm_num⟩} := by decide
  rw [huniv, Finset.sum_singleton, hval] at h0
  norm_num at h0

/-- C5 amended: in `func_attention`, the FIRST softmax stage normalises
over the query dimension (for every batch sample and source spatial
location, the first-stage attention sums to 1 over query positions),
while the SECOND, gamma-sharpened softmax stage normalises over the
source dimension (for every batch sample and query position, the
second-stage attention sums to 1 over spatial locations). -/
theorem funcAttention_softmax_axes (B D Q ih iw : ℕ)
    (query : Fin B → Fin D → Fin Q → ℝ)
    (context : Fin B → Fin D → Fin ih → Fin iw → ℝ)
    (gamma1 : ℝ) (scaled : Bool) (hQ : 0 < Q) (hS : 0 < ih * iw) :
    (∀ (b : Fin B) (s : Fin (ih * iw)),
      ∑ q, funcAttnFirstView B D Q ih iw query context scaled b s q = 1) ∧
    (∀ (b : Fin B) (q : Fin Q),
      ∑ s, funcAttnSecondView B D Q ih iw query context scaled gamma1 b q s = 1) := by
  constructor
  · intro b s
    exact softmaxRow_sum hQ _
  · intro b q
    exact softmaxRow_sum hS _

/-- C5 witness: the amended statement at a concrete all-zero input with
batch 1, `ndf` 1, two query positions, a 1x1 context and `gamma1 = 4`. -/
theorem funcAttention_softmax_axes_witness :
    (∀ (b : Fin 1) (s : Fin (1 * 1)),
      ∑ q, funcAttnFirstView 1 1 2 1 1 (fun _ _ _ => 0) (fun _ _ _ _ => 0) true b s q = 1) ∧
    (∀ (b : Fin 1) (q : Fin 2),
      ∑ s, funcAttnSecondView 1 1 2 1 1 (fun _ _ _ => 0) (fun _ _ _ _ => 0) true 4 b q s = 1) :=
  funcAttention_softmax_axes 1 1 2 1 1 (fun _ _ _ => 0) (fun _ _ _ _ => 0) 4 true
    (by norm_num) (by norm_num)

/-! ### C9: the gated linear unit -/

/-- C9: for every input with even channel count `2*C`, `Layers.GLU` returns
a tensor with exactly `C` channels whose entries are
`first_half * sigmoid(second_half)`; for every input with odd channel
count `2*C + 1`, the assert fires and the call raises. -/
theorem glu_halves_and_gates (nb nc nr : ℕ) (d : ℕ → ℕ → ℕ → ℝ) (C : ℕ) :
    (nc = 2 * C → GLU_forward ⟨nb, nc, nr, d⟩ =
      some ⟨nb, C, nr, fun b c r => d b c r * sigmoid (d b (c + C) r)⟩) ∧
    (nc = 2 * C + 1 → GLU_forward ⟨nb, nc, nr, d⟩ = none) := by
  constructor
  · intro h
    subst h
    have h2 : 2 * C % 2 = 0 := by omega
    have h3 : 2 * C / 2 = C := by omega
    simp [GLU_forward, h2, h3]
  · intro h
    subst h
    have h2 : (2 * C + 1) % 2 = 1 := by omega
    simp [GLU_forward, h2]

/-- C9 witness: a 2-channel all-ones input is halved to one gated channel;
a 3-channel input is rejected. -/
theorem glu_halves_and_gates_witness :
    GLU_forward ⟨1, 2, 1, fun _ _ _ => 1⟩ =
      some ⟨1, 1, 1, fun b c r => (fun _ _ _ => (1 : ℝ)) b c r *
        sigmoid ((fun _ _ _ => (1 : ℝ)) b (c + 1) r)⟩ ∧
    GLU_forward ⟨1, 3, 1, fun _ _ _ => 1⟩ = none :=
  ⟨(glu_halves_and_gates 1 2 1 (fun _ _ _ => 1) 1).1 rfl,
   (glu_halves_and_gates 1 3 1 (fun _ _ _ => 1) 1).2 rfl⟩

/-! ### C10: forward without a previously set mask -/

/-- C10: if `AttentionModule.forward` is invoked while the mask field is
still `None` (no prior `apply_mask` call), the unpacking
`(batch, seq_len) = self.mask.shape` raises an `AttributeError` for every
input: the call never produces a result, so it never silently computes
unmasked attention. -/
theorem attnForward_requires_mask (ncIn embDim : ℕ) (img : S4) (wrd : S3) :
    attnForwardShape ncIn embDim none img wrd = none := rfl

/-! ### Shape evaluation lemmas -/

/-- With matching input shapes every check in `AttentionModule.forward`
passes and the output shapes are as documented. -/
theorem attnForwardShape_matching (nc emb B L h w : ℕ) :
    attnForwardShape nc emb (some ⟨B, L⟩) ⟨B, nc, h, w⟩ ⟨B, emb, L⟩ =
      some (⟨B, nc, h, w⟩, ⟨B, L, h, w⟩) := by
  simp [attnForwardShape]

/-- A single residual block preserves the shape it was configured for. -/
theorem resBlockShape_eval (cn B h w : ℕ) :
    resBlockShape cn ⟨B, cn, h, w⟩ = some ⟨B, cn, h, w⟩ := by
  have h2 : cn * 2 % 2 = 0 := by omega
  have h3 : cn * 2 / 2 = cn := by omega
  simp [resBlockShape, conv3x3Shape, batchNorm2dShape, gluShape, h2, h3]

/-- A sequential stack of residual blocks preserves the shape it was
configured for. -/
theorem seqResBlocks_eval (cn B h w n : ℕ) :
    seqResBlocks cn n ⟨B, cn, h, w⟩ = some ⟨B, cn, h, w⟩ := by
  induction n with
  | zero => rfl
  | succ n ih => simp [seqResBlocks, resBlockShape_eval, ih]

/-- An upsample block doubles the spatial dims and moves the channel count
from `inP` to `outP`. -/
theorem upBlockShape_eval (inP outP B h w : ℕ) :
    upBlockShape inP outP ⟨B, inP, h, w⟩ = some ⟨B, outP, 2 * h, 2 * w⟩ := by
  have h2 : outP * 2 % 2 = 0 := by omega
  have h3 : outP * 2 / 2 = outP := by omega
  simp [upBlockShape, upsampleX2Shape, conv3x3Shape, batchNorm2dShape, gluShape, h2, h3]

/-! ### C3: AttentionModule.forward shape round-trip -/

/-- C3: for input images `(B, C, H, W)` and words `(B, E, L)` with a
matching set mask `(B, L)`, `AttentionModule.forward` returns a weighted
context of shape `(B, C, H, W)` and an attention map of shape
`(B, L, H, W)`. -/
theorem attnForward_shape_roundtrip (C E B L H W : ℕ) :
    attnForwardShape C E (some ⟨B, L⟩) ⟨B, C, H, W⟩ ⟨B, E, L⟩ =
      some (⟨B, C, H, W⟩, ⟨B, L, H, W⟩) :=
  attnForwardShape_matching C E B L H W

/-! ### C4: mask shape mismatch fails fast -/

/-- C4: whenever the stored mask's batch or sequence-length dimension
disagrees with the batch or sequence length of `words`,
`AttentionModule.forward` raises a shape error at the point of use (the
failed `view`/`bmm` contract) and never returns a result tensor. -/
theorem attnForward_mask_mismatch_none (ncIn embDim : ℕ) (img : S4) (wrd : S3) (msk : S2)
    (hmm : msk.b ≠ wrd.b ∨ msk.n ≠ wrd.l) :
    attnForwardShape ncIn embDim (some msk) img wrd = none := by
  simp only [attnForwardShape]
  split_ifs with h1 h2 h3 h4 h5 <;> try rfl
  exfalso
  rcases hmm with h | h
  · exact h h5.1.symm
  · exact h h5.2.symm

/-- C4 witness: a mask of shape (1, 3) against words of shape (1, 1, 2)
on a 1x1x1x1 image: the forward call fails. -/
theorem attnForward_mask_mismatch_none_witness :
    attnForwardShape 1 1 (some ⟨1, 3⟩) ⟨1, 1, 1, 1⟩ ⟨1, 1, 2⟩ = none :=
  attnForward_mask_mismatch_none 1 1 ⟨1, 1, 1, 1⟩ ⟨1, 1, 2⟩ ⟨1, 3⟩ (Or.inr (by decide))

/-! ### C6: GenNextStage.forward shapes -/

/-- C6: for `GenNextStage.forward` with images `(B, gf, h, w)` (the
channel count equal to the configured `gf_dim`), word embeddings
`(B, emb, L)` and mask `(B, L)`, the returned image has shape
`(B, gf, 2h, 2w)` — spatial dims doubled, channels back to `gf` after the
internal doubling to `2*gf` — and the attention map has shape
`(B, L, h, w)`. -/
theorem genNextStage_shape (gf emb nres B L h w : ℕ) :
    genNextStageForwardShape gf emb nres ⟨B, gf, h, w⟩ ⟨B, emb, L⟩ ⟨B, L⟩ =
      some (⟨B, gf, 2 * h, 2 * w⟩, ⟨B, L, h, w⟩) := by
  have hgg : gf + gf = gf * 2 := by omega
  simp [genNextStageForwardShape, AttentionModule_apply_mask, attnForwardShape_matching,
    catDim1, hgg, seqResBlocks_eval, upBlockShape_eval]

/-- `GenInitialStage.forward` succeeds for every positive base width:
the fc/GLU/view pipeline lands on `(b, gf_dim, 4, 4)` and the four
upsample blocks end at `(b, gf_dim / 16, 64, 64)` (floor division). -/
theorem genInitialStage_forward_eval (ng nz ne b : ℕ) (hng : 0 < ng) :
    genInitialStageForwardShape ng nz ne ⟨b, nz⟩ ⟨b, ne⟩ = some ⟨b, ng / 16, 64, 64⟩ := by
  have h2 : ng * 4 * 4 * 2 % 2 = 0 := by omega
  have h3 : ng * 4 * 4 * 2 / 2 = ng * 16 := by omega
  have h5 : ng * 16 ≠ 0 := by omega
  have h6 : b * (ng * 16) % (ng * 16) = 0 := Nat.mul_mod_left b (ng * 16)
  have h7 : b * (ng * 16) / (ng * 16) = b := Nat.mul_div_cancel b (by omega)
  simp [genInitialStageForwardShape, catDim1S2, linearShape, batchNorm1dShape, glu1dShape,
    viewInferBatch, h2, h3, h5, h6, h7, upBlockShape_eval]

/-! ### C7: GenInitialStage.forward shapes -/

/-- C7: for `GenInitialStage.forward` with noise `(b, z_dim)` and sentence
`(b, emb_dim)`, and base width `gf_dim` divisible by 16, the output has
shape `(b, gf_dim / 16, 64, 64)`: the pipeline starts from
`(b, gf_dim, 4, 4)` and each of the four upsample blocks doubles the
spatial resolution and halves the channel width. -/
theorem genInitialStage_shape (ng nz ne b : ℕ) (hng : 0 < ng) (_hdvd : 16 ∣ ng) :
    genInitialStageForwardShape ng nz ne ⟨b, nz⟩ ⟨b, ne⟩ = some ⟨b, ng / 16, 64, 64⟩ :=
  genInitialStage_forward_eval ng nz ne b hng

/-- C7 witness: base width 32, noise dim 100, embedding dim 256, batch 2:
the output shape is (2, 2, 64, 64). -/
theorem genInitialStage_shape_witness :
    genInitialStageForwardShape 32 100 256 ⟨2, 100⟩ ⟨2, 256⟩ = some ⟨2, 2, 64, 64⟩ :=
  genInitialStage_shape 32 100 256 2 (by norm_num) (by norm_num)

/-! ### C8: no construction-time divisibility check exists -/

/-- C8 counterexample: constructing `GenInitialStage` with `gf_dim = 24`
(not divisible by 16) does NOT fail: `define_module` is a total function
of the configuration and silently produces the floored channel schedule
24 -> 12 -> 6 -> 3 -> 1, whose last step is not an exact halving
(2 * 1 is not 3). -/
theorem genInitialStage_construction_no_check_counterexample :
    ¬ (16 ∣ 24) ∧
    GenInitialStage_define_module 24 100 256 =
      ⟨356, 768, (24, 12), (12, 6), (6, 3), (3, 1)⟩ ∧
    2 * (GenInitialStage_define_module 24 100 256).up4.2 ≠
      (GenInitialStage_define_module 24 100 256).up4.1 := by
  refine ⟨by decide, rfl, by decide⟩

/-- C8 amended: constructing `GenInitialStage` with a base width not
divisible by 16 succeeds with no configuration error; the channel
schedule is silently floor-divided (`ng -> ng/2 -> ng/4 -> ng/8 ->
ng/16`), and even the forward pass still succeeds, producing
`(b, gf_dim / 16, 64, 64)` with floor division. -/
theorem genInitialStage_construction_floor_schedule (ng nz ne b : ℕ)
    (_hnd : ¬ 16 ∣ ng) (hng : 0 < ng) :
    GenInitialStage_define_module ng nz ne =
      ⟨nz + ne, ng * 4 * 4 * 2, (ng, ng / 2), (ng / 2, ng / 4), (ng / 4, ng / 8), (ng / 8, ng / 16)⟩ ∧
    genInitialStageForwardShape ng nz ne ⟨b, nz⟩ ⟨b, ne⟩ = some ⟨b, ng / 16, 64, 64⟩ :=
  ⟨rfl, genInitialStage_forward_eval ng nz ne b hng⟩

/-- C8 witness: the amended statement at `gf_dim = 24`, noise dim 100,
embedding dim 256, batch 2. -/
theorem genInitialStage_construction_floor_schedule_witness :
    GenInitialStage_define_module 24 100 256 =
      ⟨100 + 256, 24 * 4 * 4 * 2, (24, 24 / 2), (24 / 2, 24 / 4), (24 / 4, 24 / 8), (24 / 8, 24 / 16)⟩ ∧
    genInitialStageForwardShape 24 100 256 ⟨2, 100⟩ ⟨2, 256⟩ = some ⟨2, 24 / 16, 64, 64⟩ :=
  genInitialStage_construction_floor_schedule 24 100 256 2 (by decide) (by decide)
